import Mathlib

/-!
Verification development for the query-builder front end: a shallow
embedding of the literal-coercion function, the filter compiler, the
query-descriptor builder, the debounced execution trigger, the
column-width estimator, the pagination controls, and the streaming
NDJSON export pipeline, together with theorems settling the stated
properties of each.

Machine reals of the host language are modelled as exact rationals
(`ℚ`): every concrete value appearing in the properties below is small
enough that the host's binary floating point computes it exactly, so
the rational model agrees with the code on all inputs the theorems
evaluate.
-/

namespace QueryTool

/-- The result of the host language's string-to-number conversion:
either a finite value (modelled exactly as a rational), one of the two
infinities, or the not-a-number marker for strings that fail to parse. -/
inductive JSNum where
  | finite (q : ℚ)
  | inf
  | negInf
  | nan
deriving DecidableEq, Repr

/-- An ASCII whitespace character, as stripped by the host's string
trimming (the host also strips some Unicode spaces; none occur in the
properties below). -/
def isWs (c : Char) : Bool :=
  c = ' ' ∨ c = '\t' ∨ c = '\n' ∨ c = '\r' ∨ c = '\x0b' ∨ c = '\x0c'

/-- Strip leading and trailing whitespace from a character list. -/
def trimChars (cs : List Char) : List Char :=
  (((cs.dropWhile isWs).reverse).dropWhile isWs).reverse

/-- Model of the host's string `trim`. -/
def jsTrim (s : String) : String := String.mk (trimChars s.toList)

/-- Numeric value of a decimal digit character. -/
def digitVal (c : Char) : Nat := c.toNat - 48

/-- Value of a string of decimal digits, most significant first. -/
def decDigitsVal (l : List Char) : Nat :=
  l.foldl (fun a c => a * 10 + digitVal c) 0

/-- Value of a hexadecimal digit character, if it is one. -/
def hexDigitVal (c : Char) : Option Nat :=
  if c.isDigit then some (digitVal c)
  else if 'a' ≤ c ∧ c ≤ 'f' then some (c.toNat - 87)
  else if 'A' ≤ c ∧ c ≤ 'F' then some (c.toNat - 55)
  else none

/-- Value of a non-empty digit string in the given radix; `none` when any
character is not a digit of that radix or the string is empty. -/
def parseRadix (radix : Nat) (cs : List Char) : Option Nat :=
  if cs.isEmpty then none
  else
    cs.foldl
      (fun acc c =>
        acc.bind fun a =>
          (hexDigitVal c).bind fun d =>
            if d < radix then some (a * radix + d) else none)
      (some 0)

/-- The optional exponent tail of a decimal numeric literal: the empty
string contributes exponent `0`; `e`/`E`, an optional sign and at least
one digit contribute the signed digit value; anything else fails the
whole parse. -/
def parseExp (cs : List Char) : Option Int :=
  match cs with
  | [] => some 0
  | e :: rest =>
      if e = 'e' ∨ e = 'E' then
        let p : Int × List Char :=
          match rest with
          | '+' :: r => (1, r)
          | '-' :: r => (-1, r)
          | r => (1, r)
        if p.2.isEmpty ∨ ¬ p.2.all Char.isDigit then none
        else some (p.1 * (decDigitsVal p.2 : Int))
      else none

/-- The exact rational `m * 10 ^ k`, negated when `neg` is set, built
with `mkRat` and integer powers only so that it evaluates inside the
kernel. -/
def decValue (neg : Bool) (m : Nat) (k : Int) : ℚ :=
  let n : Int := if neg then -(m : Int) else (m : Int)
  if 0 ≤ k then mkRat (n * (10 : Int) ^ k.toNat) 1
  else mkRat n ((10 : Nat) ^ (-k).toNat)

/-- An unsigned decimal literal: digits, an optional fractional part and
an optional exponent; the whole string must be consumed. The result is
the mantissa (all digits, integral then fractional) together with the
power of ten it scales by. -/
def parseUnsignedDec (cs : List Char) : Option (Nat × Int) :=
  let ip := cs.takeWhile Char.isDigit
  let rest1 := cs.drop ip.length
  match rest1 with
  | '.' :: rest2 =>
      let fp := rest2.takeWhile Char.isDigit
      let rest3 := rest2.drop fp.length
      if ip.isEmpty ∧ fp.isEmpty then none
      else
        (parseExp rest3).map fun e =>
          (decDigitsVal (ip ++ fp), e - (fp.length : Int))
  | _ =>
      if ip.isEmpty then none
      else (parseExp rest1).map fun e => (decDigitsVal ip, e)

/-- A signed decimal literal or a signed `Infinity`. -/
def parseSignedDec (cs : List Char) : JSNum :=
  let p : Bool × List Char :=
    match cs with
    | '+' :: r => (false, r)
    | '-' :: r => (true, r)
    | r => (false, r)
  if p.2 = "Infinity".toList then (if p.1 then JSNum.negInf else JSNum.inf)
  else
    match parseUnsignedDec p.2 with
    | some me => JSNum.finite (decValue p.1 me.1 me.2)
    | none => JSNum.nan

/-- Model of the host language's `Number(string)` conversion: trim
whitespace; the empty string converts to `0`; an unsigned `0x`/`0o`/`0b`
literal converts in its radix; otherwise the string must be a signed
decimal literal or signed `Infinity`, and any other string converts to
the not-a-number marker. -/
def jsNumber (s : String) : JSNum :=
  let cs := trimChars s.toList
  match cs with
  | [] => JSNum.finite 0
  | '0' :: c :: rest =>
      if c = 'x' ∨ c = 'X' then
        match parseRadix 16 rest with
        | some n => JSNum.finite (mkRat (n : Int) 1)
        | none => JSNum.nan
      else if c = 'o' ∨ c = 'O' then
        match parseRadix 8 rest with
        | some n => JSNum.finite (mkRat (n : Int) 1)
        | none => JSNum.nan
      else if c = 'b' ∨ c = 'B' then
        match parseRadix 2 rest with
        | some n => JSNum.finite (mkRat (n : Int) 1)
        | none => JSNum.nan
      else parseSignedDec cs
  | _ => parseSignedDec cs

/-- A dynamically-typed value as produced by the literal coercion:
boolean, number or string. -/
inductive JSValue where
  | bool (b : Bool)
  | num (n : JSNum)
  | str (s : String)
deriving DecidableEq, Repr

/-- `coerceType` from the query view: trim the token; the literal
strings `true` and `false` coerce to the booleans; otherwise convert to
a number and keep it unless the conversion is not-a-number, in which
case the trimmed token is returned as a string. -/
def coerceType (v : String) : JSValue :=
  let trimmed := jsTrim v
  if trimmed = "true" then JSValue.bool true
  else if trimmed = "false" then JSValue.bool false
  else
    let n := jsNumber trimmed
    if n = JSNum.nan then JSValue.str trimmed else JSValue.num n

/-- The wire enumeration `FilterOp`: the operator tokens the backend
query contract accepts. -/
inductive FilterOp where
  | eq
  | neq
  | lt
  | lte
  | gt
  | gte
  | like
  | inOp
  | between
  | in_range
  | is_null
  | is_not_null
deriving DecidableEq, Repr

/-- The wire token of each operator (`inOp` is spelled `in` on the wire). -/
def opToken : FilterOp → String
  | .eq => "eq"
  | .neq => "neq"
  | .lt => "lt"
  | .lte => "lte"
  | .gt => "gt"
  | .gte => "gte"
  | .like => "like"
  | .inOp => "in"
  | .between => "between"
  | .in_range => "in_range"
  | .is_null => "is_null"
  | .is_not_null => "is_not_null"

/-- `OPS`, the operator list offered by the full query view's operator
selector. -/
def OPS : List FilterOp :=
  [.eq, .neq, .lt, .lte, .gt, .gte, .like, .inOp, .between, .in_range,
   .is_null, .is_not_null]

/-- `OPS` of the legacy query view component (kept in the repository at
`src/components/QueryView.tsx`): operator tokens as written there. -/
def OPS_legacy : List String :=
  ["eq", "neq", "lt", "lte", "gt", "gte", "contains"]

/-- `NO_VALUE_OPS`: operators whose compiled clause carries no value. -/
def NO_VALUE_OPS (op : FilterOp) : Bool :=
  op = .is_null ∨ op = .is_not_null

/-- `ARRAY_VALUE_OPS`: operators whose compiled clause carries a list. -/
def ARRAY_VALUE_OPS (op : FilterOp) : Bool :=
  op = .inOp ∨ op = .in_range

/-- A draft filter row of the interface: possibly missing column,
operator, possibly missing free-text value. -/
structure FilterRow where
  column : Option String
  op : FilterOp
  value : Option String
deriving DecidableEq, Repr

/-- The value slot of a compiled filter clause: one coerced scalar or an
ordered list of coerced values. -/
inductive ClauseValue where
  | scalar (v : JSValue)
  | arr (vs : List JSValue)
deriving DecidableEq, Repr

/-- A compiled filter clause; `value = none` models the clause object
omitting the `value` field. -/
structure FilterClause where
  column : String
  op : FilterOp
  value : Option ClauseValue
deriving DecidableEq, Repr

/-- Truthiness of an optional string: absent and empty are falsy. -/
def strFalsy (v : Option String) : Bool :=
  match v with
  | none => true
  | some s => s = ""

/-- Split a character list at every occurrence of the separator; the
empty list yields one empty segment, as the host's `split` does. -/
def splitOnChar (sep : Char) : List Char → List (List Char)
  | [] => [[]]
  | c :: rest =>
      let r := splitOnChar sep rest
      if c = sep then [] :: r
      else
        match r with
        | [] => [[c]]
        | seg :: segs => (c :: seg) :: segs

/-- Model of the host's `raw.split(",")`. -/
def jsSplitComma (s : String) : List String :=
  (splitOnChar ',' s.toList).map String.mk

/-- The `between` token list: split the raw value at commas, trim each
part, keep the non-empty ones. -/
def betweenParts (raw : String) : List String :=
  ((jsSplitComma raw).map jsTrim).filter (fun s => s ≠ "")

/-- The `in`/`in_range` token list: split the raw value at commas, trim
each part, keep those of positive length. -/
def arrayTokens (raw : String) : List String :=
  ((jsSplitComma raw).map jsTrim).filter (fun s => s.length > 0)

/-- One step of the filter compiler inside `queryBody`: map a draft row
to its compiled clause, or to `none` when the row is dropped. Mirrors
the `filters.map(...)` body: a row with a falsy column is dropped;
no-value operators compile to a clause without a value; `between` needs
exactly two non-empty comma-separated parts, each coerced; `in` and
`in_range` compile the non-empty trimmed tokens and are dropped when no
token remains; every other operator needs one non-empty raw value. -/
def processFilter (f : FilterRow) : Option FilterClause :=
  if strFalsy f.column then none
  else
    let col := f.column.getD ""
    let op := f.op
    if NO_VALUE_OPS op then some ⟨col, op, none⟩
    else
      let raw := f.value.getD ""
      if op = FilterOp.between then
        let parts := betweenParts raw
        if parts.length = 2 then
          some ⟨col, op, some (ClauseValue.arr (parts.map coerceType))⟩
        else none
      else if ARRAY_VALUE_OPS op then
        let arr := (arrayTokens raw).map coerceType
        if arr.isEmpty then none
        else some ⟨col, op, some (ClauseValue.arr arr)⟩
      else
        if raw = "" then none
        else some ⟨col, op, some (ClauseValue.scalar (coerceType raw))⟩

/-- The logical connective between filter clauses. -/
inductive LogicalOp where
  | and
  | or
deriving DecidableEq, Repr

/-- Sort direction. -/
inductive Direction where
  | asc
  | desc
deriving DecidableEq, Repr

/-- The query view's state feeding the descriptor builder. -/
structure QueryState where
  selectedTable : Option String
  fields : List String
  filters : List FilterRow
  logical : LogicalOp
  orderColumn : Option String
  orderDirection : Direction
  limit : Int
  offset : Int
deriving DecidableEq, Repr

/-- The wire descriptor `QueryBody`; `order_by = none` and
`fields = none` model the respective JSON keys being omitted. -/
structure QueryBody where
  filters : List FilterClause
  logical_operator : LogicalOp
  order_by : Option (String × Direction)
  limit : Int
  offset : Int
  fields : Option (List String)
deriving DecidableEq, Repr

/-- The `queryBody` memo of the query view: `none` when no table is
selected (the table value is falsy); otherwise the compiled filters,
the connective, the sort pair when a sort column is set, limit, offset,
and the projection when it is non-empty. -/
def queryBody (s : QueryState) : Option QueryBody :=
  if strFalsy s.selectedTable then none
  else
    some
      { filters := s.filters.filterMap processFilter
        logical_operator := s.logical
        order_by :=
          if strFalsy s.orderColumn then none
          else some (s.orderColumn.getD "", s.orderDirection)
        limit := s.limit
        offset := s.offset
        fields := if s.fields.isEmpty then none else some s.fields }

/-- The handler of the operator selector of filter row `idx`: replace
that row's operator and clear its draft value, leaving its column and
every other row as they were (`arr.map((it, i) => i === idx ? { ...it,
op, value: undefined } : it)`). -/
def setFilterOp (filters : List FilterRow) (idx : Nat) (op : FilterOp) :
    List FilterRow :=
  filters.mapIdx fun i it =>
    if i = idx then { it with op := op, value := none } else it

/-- A pagination-control operation: the Prev button, the Next button, or
an edit of the limit input (whose numeric value the handler clamps with
`Math.max(1, ...)`). -/
inductive PageOp where
  | prev
  | next
  | setLimit (n : Int)
deriving DecidableEq, Repr

/-- The pagination slice of the view state. -/
structure PageState where
  limit : Int
  offset : Int
deriving DecidableEq, Repr

/-- The initial pagination state: `limit = 100`, `offset = 0`. -/
def pageInit : PageState := ⟨100, 0⟩

/-- One pagination control firing: Prev sets
`offset := max 0 (offset - limit)`, Next sets `offset := offset + limit`,
editing the limit sets `limit := max 1 n`. -/
def pageStep (s : PageState) : PageOp → PageState
  | .prev => { s with offset := max 0 (s.offset - s.limit) }
  | .next => { s with offset := s.offset + s.limit }
  | .setLimit n => { s with limit := max 1 n }

/-- The pagination state after a sequence of control operations from the
initial state. -/
def runPageOps (ops : List PageOp) : PageState :=
  ops.foldl pageStep pageInit

/-- The `useDebouncedCallback` helper in isolation: each call at time
`t` clears any pending timer and arms a new one to fire at `t + delay`;
a pending timer survives exactly when the next call happens strictly
before its firing instant. Input: the calls as (time, argument) pairs
in increasing time order. Output: the (firing time, argument) pairs of
the timers that actually fire. In the query view only Run Query clicks
reach this helper; `issuedRequests` below models the view's full
request issuance. -/
def debounceFired {α : Type} (delay : Nat) : List (Nat × α) → List (Nat × α)
  | [] => []
  | (t, d) :: rest =>
      match rest with
      | [] => [(t + delay, d)]
      | (t2, _) :: _ =>
          if t + delay ≤ t2 then (t + delay, d) :: debounceFired delay rest
          else debounceFired delay rest

/-- A rendered row of the data grid, modelled as the association list of
its object's (key, stringified value) pairs. -/
def GridRow : Type := List (String × String)

/-- `rows[i]?.[c]`: the value of column `c` in a row, when present. -/
def rowLookup (r : GridRow) (c : String) : Option String :=
  (r.find? fun p => p.1 == c).map Prod.snd

/-- `val == null ? "" : String(val)`: the stringified cell content, the
empty string for a missing or null value. -/
def cellStr (r : GridRow) (c : String) : String :=
  (rowLookup r c).getD ""

/-- The scan of `useColumnWidths`: the maximum of the header's character
length and each sampled value's stringified length. -/
def colMaxLen (c : String) (sample : List GridRow) : Nat :=
  sample.foldl (fun m r => max m (cellStr r c).length) c.length

/-- `Math.round`: round half away from zero toward positive infinity,
i.e. the floor of `q + 1/2`. -/
def jsRound (q : ℚ) : Int := ⌊q + 1 / 2⌋

/-- The per-character pixel constant of `useColumnWidths`. -/
def charPx : ℚ := 8

/-- The damping factor of `useColumnWidths`. -/
def damping : ℚ := 7 / 10

/-- The minimum column width of `useColumnWidths`, in pixels. -/
def minWidth : ℚ := 140

/-- The maximum column width of `useColumnWidths`, in pixels. -/
def maxWidth : ℚ := 420

/-- The width of one column in `useColumnWidths`: scan at most the first
100 rows, take the maximal character length of header and sampled
values, scale by the per-character constant and the damping factor,
clamp to `[minWidth, maxWidth]` and round. -/
def colWidth (rows : List GridRow) (c : String) : Int :=
  let sample := rows.take 100
  let maxLen := colMaxLen c sample
  jsRound (min maxWidth (max minWidth ((maxLen : ℚ) * charPx * damping)))

/-- `useColumnWidths`: one estimated pixel width per column. -/
def useColumnWidths (columns : List String) (rows : List GridRow) :
    List Int :=
  columns.map (colWidth rows)

/-- One read of the export stream: either a chunk of bytes or a read
failure (a rejected promise). The reader signals completion at the end
of the list. -/
inductive ReadStep where
  | chunk (c : List Nat)
  | failure
deriving DecidableEq, Repr

/-- Count of newline-delimited records in one chunk:
`decode(value).split("\n").filter(Boolean).length`. Splitting the
decoded text at newlines is rendered on the bytes themselves — in UTF-8
the newline character is exactly the byte 10 and never occurs inside a
multi-byte sequence, and a decoded segment is non-empty exactly when its
byte run is — so the count is the number of non-empty byte runs between
newline bytes. -/
def countRecords (chunk : List Nat) : Nat :=
  ((splitOnChar '\n' (chunk.map Char.ofNat)).filter
    (fun seg => ¬ seg.isEmpty)).length

/-- The export read loop of `onExport`: push each chunk onto the buffer
list and add its record count to the running line count; stop with the
buffers and the count at end of stream, or propagate the exception of a
failed read. -/
def exportLoop : List ReadStep → List (List Nat) → Nat →
    Option (List (List Nat) × Nat)
  | [], bufs, lines => some (bufs, lines)
  | ReadStep.chunk c :: rest, bufs, lines =>
      exportLoop rest (bufs ++ [c]) (lines + countRecords c)
  | ReadStep.failure :: _, _, _ => none

/-- The produced download: its bytes, its filename and its MIME type. -/
structure ExportFile where
  bytes : List Nat
  name : String
  mime : String
deriving DecidableEq, Repr

/-- The observable outcome of one `onExport` call: on success, the file
assembled from the buffered chunks plus the final reported line count;
on any read failure, the failure toast with no file (the buffered
chunks are local to the call and discarded). -/
inductive ExportOutcome where
  | success (f : ExportFile) (reportedLines : Nat)
  | failed
deriving DecidableEq, Repr

/-- `onExport`: run the read loop from an empty buffer; on completion
build the blob from the buffered chunks in arrival order with MIME type
`application/x-ndjson`, named `{table}-{millis}.ndjson`; on a thrown
read error, catch it and surface the failure toast. -/
def onExport (table : String) (millis : Nat) (steps : List ReadStep) :
    ExportOutcome :=
  match exportLoop steps [] 0 with
  | some (bufs, lines) =>
      ExportOutcome.success
        ⟨bufs.flatten, table ++ "-" ++ toString millis ++ ".ndjson",
         "application/x-ndjson"⟩ lines
  | none => ExportOutcome.failed

/-- The file of an export outcome, when one was produced. -/
def exportedFile : ExportOutcome → Option ExportFile
  | .success f _ => some f
  | .failed => none

/-- Whether the outcome surfaced the destructive failure toast. -/
def failureNotified : ExportOutcome → Bool
  | .success _ _ => false
  | .failed => true

/-- `onExport` as it acts on the surrounding view: the handler reads the
query state but never writes the paginated query result, so the visible
result is returned unchanged beside the outcome. -/
def onExportWithView {V : Type} (view : V) (table : String) (millis : Nat)
    (steps : List ReadStep) : ExportOutcome × V :=
  (onExport table millis steps, view)

example : coerceType "true" = JSValue.bool true := by decide
example : coerceType "false" = JSValue.bool false := by decide
example : coerceType "42" = JSValue.num (JSNum.finite 42) := by decide
example : coerceType "42abc" = JSValue.str "42abc" := by decide
example : coerceType "" = JSValue.num (JSNum.finite 0) := by decide
example : coerceType " 3.5 " = JSValue.num (JSNum.finite (mkRat 7 2)) := by decide
example : coerceType "0x10" = JSValue.num (JSNum.finite 16) := by decide
example : coerceType "-Infinity" = JSValue.num JSNum.negInf := by decide
example : coerceType "1e2" = JSValue.num (JSNum.finite 100) := by decide


/-! ## C1: literal coercion -/

/-- C1 counterexample: the empty token does not coerce to itself; the
host's number conversion sends the empty string to `0`, which is not
not-a-number, so `coerceType ""` is the number `0`, not the string `""`. -/
theorem coercion_empty_token_counterexample :
    coerceType "" = JSValue.num (JSNum.finite 0) ∧
    coerceType "" ≠ JSValue.str "" := by
  decide

/-- C1 (amended): for every text token the coercion returns exactly one
of a boolean (on a case-sensitive literal match of the trimmed token
against `true`/`false`), a number (when the trimmed token converts to a
number that is not not-a-number — in particular the empty and
whitespace-only tokens convert to the number `0`), or the trimmed token
as a string otherwise; `"true"` coerces to `true`, `"false"` to
`false`, `"42"` to the number `42`, `"42abc"` to the string `"42abc"`,
and `""` to the number `0`. -/
theorem coercion_trichotomy_amended :
    (∀ v : String,
        (∃ b, coerceType v = JSValue.bool b) ∨
        (∃ n, n ≠ JSNum.nan ∧ coerceType v = JSValue.num n) ∨
        coerceType v = JSValue.str (jsTrim v)) ∧
    (∀ v : String, coerceType v = JSValue.bool true ↔ jsTrim v = "true") ∧
    (∀ v : String, coerceType v = JSValue.bool false ↔ jsTrim v = "false") ∧
    (∀ v : String,
        coerceType v = JSValue.str (jsTrim v) ↔
          jsTrim v ≠ "true" ∧ jsTrim v ≠ "false" ∧
            jsNumber (jsTrim v) = JSNum.nan) ∧
    (∀ v : String,
        (∃ n, coerceType v = JSValue.num n) ↔
          jsTrim v ≠ "true" ∧ jsTrim v ≠ "false" ∧
            jsNumber (jsTrim v) ≠ JSNum.nan) ∧
    coerceType "true" = JSValue.bool true ∧
    coerceType "false" = JSValue.bool false ∧
    coerceType "42" = JSValue.num (JSNum.finite 42) ∧
    coerceType "42abc" = JSValue.str "42abc" ∧
    coerceType "" = JSValue.num (JSNum.finite 0) := by
  refine ⟨?_, ?_, ?_, ?_, ?_, by decide, by decide, by decide, by decide,
    by decide⟩
  · intro v
    by_cases h1 : jsTrim v = "true"
    · exact Or.inl ⟨true, by simp [coerceType, h1]⟩
    by_cases h2 : jsTrim v = "false"
    · exact Or.inl ⟨false, by simp [coerceType, h1, h2]⟩
    by_cases h3 : jsNumber (jsTrim v) = JSNum.nan
    · exact Or.inr (Or.inr (by simp [coerceType, h1, h2, h3]))
    · exact Or.inr (Or.inl ⟨jsNumber (jsTrim v), h3,
        by simp [coerceType, h1, h2, h3]⟩)
  · intro v
    simp only [coerceType]
    split_ifs with h1 h2 h3 <;> simp_all
  · intro v
    simp only [coerceType]
    split_ifs with h1 h2 h3 <;> simp_all
  · intro v
    simp only [coerceType]
    split_ifs with h1 h2 h3 <;> simp_all
  · intro v
    simp only [coerceType]
    split_ifs with h1 h2 h3 <;> simp_all

/-! ## C2: filter compiler value shapes -/

/-- C2: the compiled clause's value shape is fully determined by the
operator's arity class. A row with a falsy column is always dropped;
for `is_null`/`is_not_null` the clause omits the value even when the
row carries a stray draft value; `between` requires exactly two
non-empty comma-separated parts, which compile to the two-element list
of independently coerced values, and any other part count drops the
row; `in`/`in_range` compile the trimmed non-empty tokens in order and
an empty token list drops the row (`"a, b ,"` compiles to the coerced
`["a", "b"]`); and every compiled clause's value is, per class,
omitted, a two-element list, a non-empty list, or a scalar. -/
theorem filter_compiler_value_shapes :
    (∀ f : FilterRow, strFalsy f.column = true → processFilter f = none) ∧
    (∀ f : FilterRow, strFalsy f.column = false → NO_VALUE_OPS f.op = true →
        processFilter f = some ⟨f.column.getD "", f.op, none⟩) ∧
    (∀ f : FilterRow, strFalsy f.column = false → f.op = FilterOp.between →
        (((betweenParts (f.value.getD "")).length = 2 →
            processFilter f =
              some ⟨f.column.getD "", f.op,
                some (ClauseValue.arr
                  ((betweenParts (f.value.getD "")).map coerceType))⟩) ∧
          ((betweenParts (f.value.getD "")).length ≠ 2 →
            processFilter f = none))) ∧
    (∀ f : FilterRow, strFalsy f.column = false → ARRAY_VALUE_OPS f.op = true →
        ((arrayTokens (f.value.getD "") ≠ [] →
            processFilter f =
              some ⟨f.column.getD "", f.op,
                some (ClauseValue.arr
                  ((arrayTokens (f.value.getD "")).map coerceType))⟩) ∧
          (arrayTokens (f.value.getD "") = [] →
            processFilter f = none))) ∧
    (∀ f : FilterRow, ∀ c : FilterClause, processFilter f = some c →
        c.column = f.column.getD "" ∧ c.op = f.op ∧
        (NO_VALUE_OPS f.op = true → c.value = none) ∧
        (f.op = FilterOp.between →
            ∃ a b, c.value = some (ClauseValue.arr [a, b])) ∧
        (ARRAY_VALUE_OPS f.op = true →
            ∃ l, l ≠ [] ∧ c.value = some (ClauseValue.arr l)) ∧
        (NO_VALUE_OPS f.op = false → f.op ≠ FilterOp.between →
          ARRAY_VALUE_OPS f.op = false →
            ∃ v, c.value = some (ClauseValue.scalar v))) ∧
    processFilter ⟨some "c", FilterOp.inOp, some "a, b ,"⟩ =
      some ⟨"c", FilterOp.inOp,
        some (ClauseValue.arr [JSValue.str "a", JSValue.str "b"])⟩ := by
  refine ⟨?_, ?_, ?_, ?_, ?_, by decide⟩
  · intro f h
    simp [processFilter, h]
  · intro f h1 h2
    simp [processFilter, h1, h2]
  · intro f h1 h2
    constructor
    · intro hlen
      simp [processFilter, h1, h2, hlen, NO_VALUE_OPS]
    · intro hlen
      simp [processFilter, h1, h2, hlen, NO_VALUE_OPS]
  · intro f h1 h2
    have hnv : NO_VALUE_OPS f.op = false := by
      revert h2
      cases f.op <;> decide
    have hb : f.op ≠ FilterOp.between := by
      intro he
      rw [he] at h2
      exact absurd h2 (by decide)
    constructor
    · intro hne
      simp [processFilter, h1, hnv, hb, h2, List.isEmpty_iff, hne]
    · intro he
      simp [processFilter, h1, hnv, hb, h2, List.isEmpty_iff, he]
  · intro f c h
    simp only [processFilter] at h
    split_ifs at h with h1 h2 h3 h4 h5 h6 h7
    · -- no-value operator
      injection h with h
      subst h
      refine ⟨rfl, rfl, fun _ => rfl, ?_, ?_, ?_⟩
      · intro hbet
        exact absurd (hbet ▸ h2) (by decide)
      · intro ha
        exact absurd ha (by revert h2; cases f.op <;> decide)
      · intro hn
        simp [h2] at hn
    · -- between, two parts
      injection h with h
      subst h
      refine ⟨rfl, rfl, ?_, ?_, ?_, ?_⟩
      · intro hn
        exact absurd (h3 ▸ hn) (by decide)
      · intro _
        have hlen2 :
            ((betweenParts (f.value.getD "")).map coerceType).length = 2 := by
          rw [List.length_map]
          exact h4
        obtain ⟨a, b, hab⟩ := List.length_eq_two.mp hlen2
        exact ⟨a, b, by rw [hab]⟩
      · intro ha
        exact absurd (h3 ▸ ha) (by decide)
      · intro _ hbet _
        exact absurd h3 hbet
    · -- in / in_range, non-empty token list
      injection h with h
      subst h
      refine ⟨rfl, rfl, ?_, ?_, ?_, ?_⟩
      · intro hn
        exact absurd hn h2
      · intro hbet
        exact absurd hbet h3
      · intro _
        refine ⟨(arrayTokens (f.value.getD "")).map coerceType, ?_, rfl⟩
        simpa [List.isEmpty_iff] using h6
      · intro _ _ ha
        simp [ha] at h5
    · -- scalar operator, non-empty raw value
      injection h with h
      subst h
      refine ⟨rfl, rfl, ?_, ?_, ?_, fun _ _ _ => ⟨_, rfl⟩⟩
      · intro hn
        exact absurd hn h2
      · intro hbet
        exact absurd hbet h3
      · intro ha
        exact absurd ha h5

/-! ## C4: query descriptor builder -/

/-- C4: the builder yields no descriptor exactly when no table is
selected (the selected-table value is falsy); in a produced descriptor
the sort key is present exactly when a sort column is set, and the
projection is present exactly when the projected-field list is
non-empty — an empty projection omits the key and never produces an
empty list. -/
theorem query_descriptor_builder_spec :
    (∀ s : QueryState, queryBody s = none ↔ strFalsy s.selectedTable = true) ∧
    (∀ s : QueryState, ∀ b : QueryBody, queryBody s = some b →
        ((b.order_by = none ↔ strFalsy s.orderColumn = true) ∧
          (strFalsy s.orderColumn = false →
            b.order_by = some (s.orderColumn.getD "", s.orderDirection)) ∧
          (b.fields = none ↔ s.fields = []) ∧
          (s.fields ≠ [] → b.fields = some s.fields) ∧
          b.fields ≠ some [] ∧
          b.filters = s.filters.filterMap processFilter ∧
          b.logical_operator = s.logical ∧
          b.limit = s.limit ∧ b.offset = s.offset)) := by
  constructor
  · intro s
    by_cases h : strFalsy s.selectedTable = true <;> simp [queryBody, h]
  · intro s b h
    have hs : strFalsy s.selectedTable = false := by
      by_cases hx : strFalsy s.selectedTable = true
      · rw [queryBody, if_pos hx] at h
        cases h
      · simpa using hx
    rw [queryBody, if_neg (by simp [hs])] at h
    injection h with h
    subst h
    refine ⟨?_, ?_, ?_, ?_, ?_, rfl, rfl, rfl, rfl⟩
    · by_cases ho : strFalsy s.orderColumn = true <;> simp [ho]
    · intro ho
      simp [ho]
    · by_cases hf : s.fields.isEmpty <;>
        simp_all [List.isEmpty_iff]
    · intro hf
      simp [List.isEmpty_iff, hf]
    · by_cases hf : s.fields.isEmpty <;>
        simp_all [List.isEmpty_iff]

/-! ## C6: the operator token set -/

/-- C6 (evaluated at the divergence): the wire type and the full query
view's selector `OPS` both carry exactly the twelve claimed operator
tokens, each exactly once; the legacy query view's selector list,
however, offers the token `contains`, which is not the token of any
wire operator, and omits `is_null` (among others) — so the claim's
token set is the wire contract and the full view, and the legacy
selector is the slip. -/
theorem operator_token_set_check :
    OPS.map opToken =
      ["eq", "neq", "lt", "lte", "gt", "gte", "like", "in", "between",
        "in_range", "is_null", "is_not_null"] ∧
    (∀ op : FilterOp, op ∈ OPS) ∧
    OPS.Nodup ∧
    "contains" ∈ OPS_legacy ∧
    (∀ op : FilterOp, opToken op ≠ "contains") ∧
    "is_null" ∉ OPS_legacy ∧ "in" ∉ OPS_legacy ∧
    "between" ∉ OPS_legacy ∧ "in_range" ∉ OPS_legacy ∧
    "like" ∉ OPS_legacy ∧ "is_not_null" ∉ OPS_legacy := by
  refine ⟨by decide, ?_, by decide, by decide, ?_, by decide, by decide,
    by decide, by decide, by decide, by decide⟩
  · intro op
    cases op <;> decide
  · intro op
    cases op <;> decide

/-! ## C10: operator change resets the draft value -/

/-- C10: changing a filter row's operator through the selector replaces
exactly that row: its operator becomes the chosen one and its draft
value is cleared, its column is kept, and every other row is left
unchanged (row count included). -/
theorem operator_change_resets_value :
    ∀ (filters : List FilterRow) (idx : Nat) (op : FilterOp),
      (setFilterOp filters idx op).length = filters.length ∧
      (∀ i : Nat, ∀ h : i < filters.length,
        (setFilterOp filters idx op).get
            ⟨i, by simp only [setFilterOp, List.length_mapIdx]; exact h⟩ =
          (if i = idx then
            { column := (filters.get ⟨i, h⟩).column, op := op, value := none }
          else filters.get ⟨i, h⟩)) := by
  intro filters idx op
  refine ⟨by simp only [setFilterOp, List.length_mapIdx], ?_⟩
  intro i h
  simp only [setFilterOp]
  rw [List.get_mapIdx]

/-! ## C9: pagination offset invariant -/

/-- Prev/Next/limit edits keep the limit at least `1` and the offset
non-negative. -/
theorem pageOps_bounds (ops : List PageOp) :
    ∀ s : PageState, 1 ≤ s.limit → 0 ≤ s.offset →
      1 ≤ (ops.foldl pageStep s).limit ∧ 0 ≤ (ops.foldl pageStep s).offset := by
  induction ops with
  | nil =>
      intro s h1 h2
      exact ⟨h1, h2⟩
  | cons op rest ih =>
      intro s h1 h2
      apply ih
      · cases op <;> simp [pageStep] <;> omega
      · cases op with
        | prev => simp [pageStep]
        | next =>
            simp only [pageStep]
            omega
        | setLimit n => exact h2

/-- Prev and Next alone preserve the limit and keep the offset a
non-negative multiple of it. -/
theorem pageOps_prev_next_dvd (ops : List PageOp)
    (hpn : ∀ op ∈ ops, op = PageOp.prev ∨ op = PageOp.next) :
    ∀ s : PageState, s.limit ∣ s.offset →
      (ops.foldl pageStep s).limit = s.limit ∧
      (ops.foldl pageStep s).limit ∣ (ops.foldl pageStep s).offset := by
  induction ops with
  | nil =>
      intro s hd
      exact ⟨rfl, hd⟩
  | cons op rest ih =>
      intro s hd
      have hop := hpn op (List.mem_cons_self op rest)
      have hrest : ∀ o ∈ rest, o = PageOp.prev ∨ o = PageOp.next :=
        fun o ho => hpn o (List.mem_cons_of_mem op ho)
      rcases hop with h | h <;> subst h
      · have hstep : pageStep s PageOp.prev =
            ⟨s.limit, max 0 (s.offset - s.limit)⟩ := rfl
        have hd2 : s.limit ∣ max 0 (s.offset - s.limit) := by
          rcases max_choice 0 (s.offset - s.limit) with hm | hm <;> rw [hm]
          · exact dvd_zero s.limit
          · exact dvd_sub hd dvd_rfl
        have := ih hrest ⟨s.limit, max 0 (s.offset - s.limit)⟩ hd2
        simpa [List.foldl_cons, hstep] using this
      · have hstep : pageStep s PageOp.next =
            ⟨s.limit, s.offset + s.limit⟩ := rfl
        have hd2 : s.limit ∣ s.offset + s.limit := dvd_add hd dvd_rfl
        have := ih hrest ⟨s.limit, s.offset + s.limit⟩ hd2
        simpa [List.foldl_cons, hstep] using this

/-- C9 counterexample: from the initial state, Next (offset becomes
100) followed by editing the limit to 30 leaves offset 100 with limit
30, and 30 does not divide 100 — the offset is then not a multiple of
the current limit. -/
theorem pagination_offset_counterexample :
    (runPageOps [PageOp.next, PageOp.setLimit 30]).offset = 100 ∧
    (runPageOps [PageOp.next, PageOp.setLimit 30]).limit = 30 ∧
    ¬ (runPageOps [PageOp.next, PageOp.setLimit 30]).limit ∣
        (runPageOps [PageOp.next, PageOp.setLimit 30]).offset := by
  have ho : (runPageOps [PageOp.next, PageOp.setLimit 30]).offset = 100 := by
    simp [runPageOps, pageInit, pageStep]
  have hl : (runPageOps [PageOp.next, PageOp.setLimit 30]).limit = 30 := by
    simp [runPageOps, pageInit, pageStep]
  refine ⟨ho, hl, ?_⟩
  rw [ho, hl]
  omega

/-- C9 (amended): starting from the initial state (offset 0, limit
100), after every sequence of pagination-control operations the offset
is non-negative and the limit is positive; and after every sequence
consisting of Prev and Next alone (no limit edits) the offset is a
non-negative multiple of the current limit. An edit of the limit while
the offset is non-zero can break the multiple relation, as the
counterexample shows. -/
theorem pagination_offset_amended (ops : List PageOp) :
    1 ≤ (runPageOps ops).limit ∧ 0 ≤ (runPageOps ops).offset ∧
    ((∀ op ∈ ops, op = PageOp.prev ∨ op = PageOp.next) →
      (runPageOps ops).limit ∣ (runPageOps ops).offset) := by
  have hb := pageOps_bounds ops pageInit (by decide) (by decide)
  refine ⟨hb.1, hb.2, ?_⟩
  intro hpn
  exact (pageOps_prev_next_dvd ops hpn pageInit (by decide)).2

/-! ## C5: debounce coalescing -/

/-- The debounce helper on its own does coalesce: when every call of a
burst arrives strictly within the window of its predecessor, exactly
one timer survives — the last one — and it fires `delay` after the
last call, carrying the last call's argument. -/
theorem debounceFired_burst {α : Type} (delay : Nat)
    (events : List (Nat × α)) (hne : events ≠ [])
    (hburst : List.Chain'
      (fun a b => a.1 < b.1 ∧ b.1 < a.1 + delay) events) :
    debounceFired delay events =
      [((events.getLast hne).1 + delay, (events.getLast hne).2)] := by
  induction events with
  | nil => cases hne rfl
  | cons e rest ih =>
      cases rest with
      | nil => simp [debounceFired]
      | cons e2 rest2 =>
          have h12 := (List.chain'_cons.mp hburst).1
          have hchain := (List.chain'_cons.mp hburst).2
          have hlt : ¬ e.1 + delay ≤ e2.1 := by omega
          have hrec := ih (by simp) hchain
          rw [show (e :: e2 :: rest2).getLast hne =
              (e2 :: rest2).getLast (by simp) from List.getLast_cons (by simp)]
          simpa [debounceFired, hlt] using hrec

/-- Closed instance of the burst lemma: two calls 100 apart under a 300
window fire once, at `100 + 300`, with the second argument. -/
theorem debounceFired_burst_example :
    debounceFired 300 [(0, 1), (100, 2)] = [(400, (2 : Nat))] := by
  have h := debounceFired_burst 300 [(0, (1 : Nat)), (100, 2)] (by simp)
    (by
      refine List.chain'_cons.mpr ⟨⟨?_, ?_⟩, List.chain'_singleton _⟩ <;>
        norm_num)
  simpa using h

/-- A trigger of the query machinery while a table is selected: a
descriptor change (an edit of filters, sort, pagination or projection
that produces a new `queryBody`) or a press of the Run Query button. -/
inductive QueryEvent (α : Type) where
  | change (d : α)
  | click
deriving DecidableEq, Repr

/-- The descriptor current at time `t`: the argument of the last change
at or before `t`, or the initial descriptor when no change happened
yet (timeline in increasing time order). -/
def currentDescriptor {α : Type} (d0 : α)
    (timeline : List (Nat × QueryEvent α)) (t : Nat) : α :=
  timeline.foldl
    (fun cur e =>
      match e with
      | (te, QueryEvent.change d) => if te ≤ t then d else cur
      | (_, QueryEvent.click) => cur)
    d0

/-- The network requests the query view issues for a timeline of
descriptor changes and Run Query clicks, as (time, descriptor) pairs.
The full descriptor is part of the `useQuery` query key and fetching is
enabled, so every descriptor change makes the hook fetch immediately
with the new descriptor; only Run Query clicks go through the debounced
callback, and each timer of theirs that survives refetches, `delay`
after its click, with the descriptor current at that moment. -/
def issuedRequests {α : Type} (delay : Nat) (d0 : α)
    (timeline : List (Nat × QueryEvent α)) : List (Nat × α) :=
  let immediate := timeline.filterMap fun e =>
    match e with
    | (t, QueryEvent.change d) => some (t, d)
    | (_, QueryEvent.click) => none
  let clicks := timeline.filterMap fun e =>
    match e with
    | (t, QueryEvent.click) => some (t, ())
    | (_, QueryEvent.change _) => none
  let debounced := (debounceFired delay clicks).map
    fun p => (p.1, currentDescriptor d0 timeline p.1)
  immediate ++ debounced

/-- C5 (evaluated at the failing input): two descriptor changes 100 ms
apart — inside one 300 ms debounce window, with no Run Query click —
issue two immediate requests, one per query-key change, and the first
of them carries the already-stale first descriptor; so more than one
request is issued in the quiet period and not only the most recent
descriptor is used. By contrast, two Run Query clicks 100 ms apart with
no descriptor change issue exactly one request, 300 ms after the second
click, with the current descriptor: the debounced path coalesces, but
descriptor changes never reach it. -/
theorem debounce_coalescing_check :
    issuedRequests 300 (0 : Nat)
        [(0, QueryEvent.change 1), (100, QueryEvent.change 2)] =
      [(0, 1), (100, 2)] ∧
    ¬ (issuedRequests 300 (0 : Nat)
        [(0, QueryEvent.change 1), (100, QueryEvent.change 2)]).length ≤ 1 ∧
    (0, 1) ∈ issuedRequests 300 (0 : Nat)
        [(0, QueryEvent.change 1), (100, QueryEvent.change 2)] ∧
    issuedRequests 300 (5 : Nat)
        [(0, (QueryEvent.click : QueryEvent Nat)), (100, QueryEvent.click)] =
      [(400, 5)] := by
  refine ⟨by decide, by decide, by decide, by decide⟩

/-! ## C3 and C8: streaming export -/

/-- A fully successful stream: the loop buffers every chunk in arrival
order after the initial buffer and totals the per-chunk record counts. -/
theorem exportLoop_chunks (chunks : List (List Nat)) :
    ∀ (bufs : List (List Nat)) (lines : Nat),
      exportLoop (chunks.map ReadStep.chunk) bufs lines =
        some (bufs ++ chunks, lines + (chunks.map countRecords).sum) := by
  induction chunks with
  | nil =>
      intro bufs lines
      simp [exportLoop]
  | cons c rest ih =>
      intro bufs lines
      simp [exportLoop, ih, Nat.add_assoc]

/-- C3: reading a stream to completion appends each chunk verbatim to
the buffer list, so the produced file holds exactly the received bytes
concatenated in arrival order, with name `{table}-{millis}.ndjson` and
MIME type `application/x-ndjson`, while the reported count adds up the
newline-delimited records of each decoded chunk; for chunks holding
two, one and zero newline-terminated records the final count is three. -/
theorem export_stream_spec :
    (∀ (table : String) (millis : Nat) (chunks : List (List Nat)),
        onExport table millis (chunks.map ReadStep.chunk) =
          ExportOutcome.success
            ⟨chunks.flatten, table ++ "-" ++ toString millis ++ ".ndjson",
              "application/x-ndjson"⟩
            ((chunks.map countRecords).sum)) ∧
    countRecords [97, 10, 98, 10] = 2 ∧
    countRecords [99, 10] = 1 ∧
    countRecords [] = 0 ∧
    onExport "t" 1712
        [ReadStep.chunk [97, 10, 98, 10], ReadStep.chunk [99, 10],
          ReadStep.chunk []] =
      ExportOutcome.success
        ⟨[97, 10, 98, 10, 99, 10], "t-1712.ndjson", "application/x-ndjson"⟩
        3 := by
  refine ⟨?_, by decide, by decide, by decide, by decide⟩
  intro table millis chunks
  simp [onExport, exportLoop_chunks]

/-- A stream with a failed read makes the loop propagate the failure,
whatever was already buffered. -/
theorem exportLoop_failure (steps : List ReadStep)
    (h : ReadStep.failure ∈ steps) :
    ∀ (bufs : List (List Nat)) (lines : Nat),
      exportLoop steps bufs lines = none := by
  induction steps with
  | nil => cases h
  | cons st rest ih =>
      intro bufs lines
      cases st with
      | failure => simp [exportLoop]
      | chunk c =>
          have hr : ReadStep.failure ∈ rest := by
            rcases List.mem_cons.mp h with h1 | h1
            · cases h1
            · exact h1
          simp [exportLoop, ih hr]

/-- C8: when any read of the export stream fails (the failing initial
request being the failure-before-any-chunk case), the pipeline aborts:
no file — not even a partial one — is produced, the buffered chunks
are discarded, the failure toast is surfaced, and the visible paginated
query result is left exactly as it was. -/
theorem export_failure_atomicity (steps : List ReadStep)
    (hfail : ReadStep.failure ∈ steps) :
    ∀ (table : String) (millis : Nat) (V : Type) (view : V),
      onExport table millis steps = ExportOutcome.failed ∧
      exportedFile (onExport table millis steps) = none ∧
      failureNotified (onExport table millis steps) = true ∧
      onExportWithView view table millis steps =
        (ExportOutcome.failed, view) := by
  intro table millis V view
  have h : onExport table millis steps = ExportOutcome.failed := by
    simp [onExport, exportLoop_failure steps hfail]
  exact ⟨h, by rw [h]; rfl, by rw [h]; rfl, by rw [onExportWithView, h]⟩

/-- C8 witness: a stream that yields one chunk and then fails produces
no file, notifies, and leaves the view untouched. -/
theorem export_failure_atomicity_witness :
    onExport "t" 0 [ReadStep.chunk [104], ReadStep.failure] =
      ExportOutcome.failed ∧
    exportedFile (onExport "t" 0 [ReadStep.chunk [104], ReadStep.failure]) =
      none ∧
    failureNotified
        (onExport "t" 0 [ReadStep.chunk [104], ReadStep.failure]) = true ∧
    onExportWithView () "t" 0 [ReadStep.chunk [104], ReadStep.failure] =
      (ExportOutcome.failed, ()) :=
  export_failure_atomicity [ReadStep.chunk [104], ReadStep.failure]
    (by decide) "t" 0 Unit ()

/-! ## C7: column width estimation -/

/-- Folding `max` from an arbitrary seed equals `max` of the seed and
the fold from zero. -/
theorem foldl_fused_max_init {β : Type} (f : β → Nat) (l : List β) :
    ∀ a : Nat, l.foldl (fun m x => max m (f x)) a =
      max a (l.foldl (fun m x => max m (f x)) 0) := by
  induction l with
  | nil =>
      intro a
      simp
  | cons x xs ih =>
      intro a
      rw [List.foldl_cons, List.foldl_cons, ih (max a (f x)),
        ih (max 0 (f x)), Nat.zero_max, Nat.max_assoc]

/-- A fused max-fold stays below any bound on the seed and on every
mapped element. -/
theorem foldl_fused_max_le {β : Type} (f : β → Nat) (l : List β)
    (n : Nat) :
    ∀ a : Nat, a ≤ n → (∀ x ∈ l, f x ≤ n) →
      l.foldl (fun m x => max m (f x)) a ≤ n := by
  induction l with
  | nil =>
      intro a ha _
      simpa using ha
  | cons x xs ih =>
      intro a ha hl
      rw [List.foldl_cons]
      exact ih (max a (f x)) (max_le ha (hl x (by simp)))
        (fun y hy => hl y (by simp [hy]))

/-- The scanned maximum is bounded by any bound on the header and on
every sampled value. -/
theorem colMaxLen_le (c : String) (sample : List GridRow) (n : Nat)
    (hc : c.length ≤ n)
    (hv : ∀ r ∈ sample, (cellStr r c).length ≤ n) :
    colMaxLen c sample ≤ n :=
  foldl_fused_max_le (fun r => (cellStr r c).length) sample n c.length hc hv

/-- Every estimated width lies in the clamp range. -/
theorem colWidth_bounds (rows : List GridRow) (c : String) :
    140 ≤ colWidth rows c ∧ colWidth rows c ≤ 420 := by
  rw [colWidth]
  set x : ℚ := (colMaxLen c (rows.take 100) : ℚ) * charPx * damping with hx
  have h1 : (140 : ℚ) ≤ min maxWidth (max minWidth x) := by
    apply le_min
    · norm_num [maxWidth]
    · exact le_trans (by norm_num [minWidth]) (le_max_left _ _)
  have h2 : min maxWidth (max minWidth x) ≤ 420 := by
    exact le_trans (min_le_left _ _) (by norm_num [maxWidth])
  constructor
  · rw [jsRound]
    have : ((140 : ℤ) : ℚ) ≤ min maxWidth (max minWidth x) + 1 / 2 := by
      push_cast
      linarith
    exact Int.le_floor.mpr this
  · rw [jsRound]
    have hq : min maxWidth (max minWidth x) + 1 / 2 ≤ (841 : ℚ) / 2 := by
      linarith
    calc ⌊min maxWidth (max minWidth x) + 1 / 2⌋
        ≤ ⌊(841 : ℚ) / 2⌋ := Int.floor_le_floor hq
      _ = 420 := by norm_num [Int.floor_eq_iff]

/-- C7: each width is computed from at most the first one hundred rows,
as the rounded clamp of the maximum of the header length and the
sampled stringified lengths, scaled by the per-character constant and
the damping factor; the clamp keeps every width within [140, 420]; a
column with header `id` whose sampled values are all shorter than 17.5
characters gets exactly the minimum width 140; and a column whose
damped pixel estimate exceeds the maximum gets exactly 420. -/
theorem column_width_estimation :
    (∀ (rows : List GridRow) (c : String),
        colWidth rows c = colWidth (rows.take 100) c) ∧
    (∀ (rows : List GridRow) (c : String),
        colWidth rows c =
          jsRound (min maxWidth (max minWidth
            ((colMaxLen c (rows.take 100) : ℚ) * charPx * damping)))) ∧
    (∀ (rows : List GridRow) (c : String),
        colMaxLen c (rows.take 100) =
          max c.length
            (((rows.take 100).map fun r => (cellStr r c).length).foldl
              max 0)) ∧
    (∀ (columns : List String) (rows : List GridRow),
        ∀ w ∈ useColumnWidths columns rows, 140 ≤ w ∧ w ≤ 420) ∧
    (∀ rows : List GridRow,
        (∀ r ∈ rows.take 100, (cellStr r "id").length ≤ 17) →
          colWidth rows "id" = 140) ∧
    (∀ (rows : List GridRow) (c : String),
        maxWidth < (colMaxLen c (rows.take 100) : ℚ) * charPx * damping →
          colWidth rows c = 420) := by
  refine ⟨?_, ?_, ?_, ?_, ?_, ?_⟩
  · intro rows c
    simp [colWidth, List.take_take]
  · intro rows c
    rfl
  · intro rows c
    rw [colMaxLen, foldl_fused_max_init, List.foldl_map]
  · intro columns rows w hw
    rw [useColumnWidths] at hw
    obtain ⟨c, _, hc⟩ := List.mem_map.mp hw
    rw [← hc]
    exact colWidth_bounds rows c
  · intro rows hv
    have hm : colMaxLen "id" (rows.take 100) ≤ 17 :=
      colMaxLen_le "id" (rows.take 100) 17 (by decide) hv
    have hmq : ((colMaxLen "id" (rows.take 100) : ℕ) : ℚ) ≤ 17 := by
      exact_mod_cast hm
    have hxle : ((colMaxLen "id" (rows.take 100) : ℕ) : ℚ) * charPx * damping
        ≤ minWidth := by
      simp only [charPx, damping, minWidth]
      linarith
    rw [colWidth, max_eq_left hxle,
      min_eq_right (by norm_num [minWidth, maxWidth] : minWidth ≤ maxWidth)]
    norm_num [jsRound, minWidth, Int.floor_eq_iff]
  · intro rows c hgt
    have h140 : minWidth ≤ (colMaxLen c (rows.take 100) : ℚ) * charPx * damping := by
      have : maxWidth < (colMaxLen c (rows.take 100) : ℚ) * charPx * damping := hgt
      simp only [minWidth] at *
      simp only [maxWidth] at this
      linarith
    rw [colWidth, max_eq_right h140, min_eq_left (le_of_lt hgt)]
    norm_num [jsRound, maxWidth, Int.floor_eq_iff]

namespace SanityChecks
example : processFilter ⟨some "c", FilterOp.inOp, some "a, b ,"⟩ =
    some ⟨"c", FilterOp.inOp, some (ClauseValue.arr [JSValue.str "a", JSValue.str "b"])⟩ := by decide
example : processFilter ⟨some "c", FilterOp.is_null, some "junk"⟩ =
    some ⟨"c", FilterOp.is_null, none⟩ := by decide
example : processFilter ⟨none, FilterOp.eq, some "x"⟩ = none := by decide
example : processFilter ⟨some "c", FilterOp.between, some "1,5"⟩ =
    some ⟨"c", FilterOp.between, some (ClauseValue.arr
      [JSValue.num (JSNum.finite 1), JSValue.num (JSNum.finite 5)])⟩ := by decide
example : processFilter ⟨some "c", FilterOp.between, some "1,2,3"⟩ = none := by decide
example : processFilter ⟨some "c", FilterOp.between, some "1"⟩ = none := by decide
example : processFilter ⟨some "c", FilterOp.eq, some ""⟩ = none := by decide
example : processFilter ⟨some "c", FilterOp.eq, none⟩ = none := by decide
example : processFilter ⟨some "", FilterOp.eq, some "x"⟩ = none := by decide
end SanityChecks

end QueryTool

